import Mathlib

/-!
Shallow embedding of the UTXO attack-analysis data-processing scripts
(annotate_utxo_script_bytes.py, script_address_classifier.py,
dust_attacker_filtration.py, compute_attack_metrics.py).

Python strings are modelled as Lean `String`; Python numbers as `ℚ`
(exact rational arithmetic standing in for IEEE doubles; every concrete
value appearing below is exactly representable) and `ℤ`/`ℕ` for integers.
`Option` models absent/None values and `Except` models a raised exception.
-/

/-! ### Python string primitives -/

/-- Python `str.strip()`: remove leading and trailing whitespace. -/
def py_strip (s : String) : String :=
  String.mk (((s.data.dropWhile Char.isWhitespace).reverse.dropWhile Char.isWhitespace).reverse)

/-- Python `str.lower()`. -/
def py_lower (s : String) : String := String.mk (s.data.map Char.toLower)

/-- Python `str.upper()`. -/
def py_upper (s : String) : String := String.mk (s.data.map Char.toUpper)

/-- Python `s.startswith(pre)`. -/
def py_startswith (s pre : String) : Bool := pre.data.isPrefixOf s.data

/-- Helper for substring containment: does `pat` occur in the list? -/
def substr_aux (pat : List Char) : List Char → Bool
  | [] => pat.isPrefixOf []
  | c :: rest => pat.isPrefixOf (c :: rest) || substr_aux pat rest

/-- Python `pat in s` (substring test). -/
def py_in (pat s : String) : Bool := substr_aux pat.data s.data

/-! ### annotate_utxo_script_bytes.py -/

/-- The `SCRIPT_TYPE_BYTES` dict together with `.get` with the UNKNOWN entry as default:
fixed byte sizes for known script types, defaulting to the UNKNOWN entry (43). -/
def SCRIPT_TYPE_BYTES_get (st : String) : ℕ :=
  if st = "P2PKH" then 34
  else if st = "P2SH" then 32
  else if st = "P2WPKH" then 31
  else if st = "P2WSH" then 43
  else if st = "P2TR" then 43
  else if st = "OP_RETURN" then 0
  else if st = "UNKNOWN" then 43
  else 43

/-- `identify_script_type`: script type from address prefix or literal OP_RETURN.
The Python guard `if not address or not isinstance(address, str)` is modelled by
the empty-string test (the non-string case is outside the String model). -/
def identify_script_type (address : String) : String :=
  if address = "" then "UNKNOWN"
  else if py_startswith address "OP_RETURN" then "OP_RETURN"
  else if py_startswith address "1" then "P2PKH"
  else if py_startswith address "3" then "P2SH"
  else if py_startswith address "bc1q" then
    (if address.length < 45 then "P2WPKH" else "P2WSH")
  else if py_startswith address "bc1p" then "P2TR"
  else "UNKNOWN"

/-- `varint_size`: byte size of a Bitcoin varint encoding. -/
def varint_size (n : ℕ) : ℕ :=
  if n < 253 then 1
  else if n < 65536 then 3
  else 5

/-- A transaction input as read by `calculate_input_bytes`:
`scriptSigHex` models the hex field of the scriptSig dict
(empty when scriptSig is absent or not a dict), and `txinwitness` models
the txinwitness field, with None/missing coerced to the empty list. -/
structure InputItem where
  scriptSigHex : String
  txinwitness : List String

/-- `calculate_input_bytes`: byte size of a transaction input (SegWit or legacy).
`math.ceil(weight / 4)` on the integer `weight` is the rational ceiling. -/
def calculate_input_bytes (input_item : InputItem) : ℕ :=
  let base := 32 + 4 + 4
  let hexstr := input_item.scriptSigHex
  let witness := input_item.txinwitness
  if witness ≠ [] then
    let sb := if hexstr ≠ "" then hexstr.length / 2 else 0
    let base_size := base + varint_size sb + sb
    let wsize := witness.foldl (fun acc w => acc + (varint_size (w.length / 2) + w.length / 2)) 1
    let weight := base_size * 4 + wsize
    ⌈((weight : ℕ) : ℚ) / 4⌉₊
  else if hexstr ≠ "" then
    let sb := hexstr.length / 2
    base + varint_size sb + sb
  else
    base + 1

/-- Reference input virtual-size, written from the specification text: with
`sb` half the scriptSig hex length, a non-empty witness stack yields
`ceil((4*(40 + varint(sb) + sb) + 1 + Σ (varint(|w|) + |w|)) / 4)`;
an empty witness stack yields `40 + varint(sb) + sb` when a scriptSig hex
payload exists and `41` otherwise. -/
def spec_input_vbytes (input_item : InputItem) : ℕ :=
  let sb := input_item.scriptSigHex.length / 2
  if input_item.txinwitness ≠ [] then
    let base_size := 40 + varint_size sb + sb
    let witness_size :=
      1 + (input_item.txinwitness.map (fun w => varint_size (w.length / 2) + w.length / 2)).sum
    ⌈((base_size * 4 + witness_size : ℕ) : ℚ) / 4⌉₊
  else if input_item.scriptSigHex ≠ "" then
    40 + varint_size sb + sb
  else
    41

/-- An output entry as seen by `add_bytes_to_item` (output branch): the
`scriptType` field (empty string models a missing/falsy value) and the
`outputHash` address. -/
structure OutputItem where
  scriptType : String
  outputHash : String

/-- Output branch of `add_bytes_to_item`:
take the scriptType field when truthy, else classify the outputHash
address; then look the type up in SCRIPT_TYPE_BYTES with the UNKNOWN default. -/
def add_bytes_output (item : OutputItem) : ℕ :=
  let st := if item.scriptType ≠ "" then item.scriptType else identify_script_type item.outputHash
  SCRIPT_TYPE_BYTES_get st

/-! ### script_address_classifier.py -/

/-- The character class `[0-9A-Fa-f]`. -/
def isHexChar (c : Char) : Bool :=
  (('0' ≤ c) && (c ≤ '9')) || (('a' ≤ c) && (c ≤ 'f')) || (('A' ≤ c) && (c ≤ 'F'))

/-- `is_valid_hex`: `HEX_RE.fullmatch(s.strip())` with `HEX_RE = ^[0-9A-Fa-f]*$`. -/
def is_valid_hex (s : String) : Bool := (py_strip s).data.all isHexChar

/-- A UTXO input record as read by `classify_utxo`. -/
structure Utxo where
  inputHash : String
  scriptSigAsm : String
  scriptSigHex : String
  txinwitness : List String
  scriptType : String

/-- The P2SH branch of `classify_utxo` (stripped address starting with 3).
The source reaches this code twice: directly, and through the recursive call
that retries the same record with inputHash replaced by the bare digit 3,
which re-reads the same scriptSig and witness fields and lands in this same
branch; both call sites use this definition. -/
def classify_p2sh (asm hex_sig : String) (witness : List String) : String :=
  let has_sig := (asm != "") && (hex_sig != "") && is_valid_hex hex_sig
  let has_wit := !witness.isEmpty
  if (py_in "0014" asm || py_startswith hex_sig "160014") && has_wit then "P2SH-P2WPKH"
  else if (py_in "0020" asm || py_startswith hex_sig "220020") && has_wit then "P2SH-P2WSH"
  else if has_sig && !has_wit then "P2SH"
  else "Non-Standard P2SH"

/-- `classify_utxo`: classify a UTXO input record into a script type. -/
def classify_utxo (utxo : Utxo) : String :=
  let addr := py_strip utxo.inputHash
  let asm := py_lower (py_strip utxo.scriptSigAsm)
  let hex_sig := py_lower (py_strip utxo.scriptSigHex)
  let witness := utxo.txinwitness
  if py_startswith addr "1" then "P2PKH"
  else if py_startswith addr "bc1q" then
    (if addr.length < 45 then "P2WPKH" else "P2WSH")
  else if py_startswith addr "3" then classify_p2sh asm hex_sig witness
  else if py_startswith addr "bc1p" then
    (if witness.length = 1 then "P2TR_key_path" else "P2TR_script_path")
  else
    let st := py_upper utxo.scriptType
    if st = "P2SH" then classify_p2sh asm hex_sig witness
    else if st = "P2TR" then
      (if witness.length = 1 then "P2TR_key_path" else "P2TR_script_path")
    else "Non-Standard"

/-! ### dust_attacker_filtration.py -/

/-- `np.percentile(arr, p)` with the default linear-interpolation method: sort,
take virtual index `v = (n-1)*p/100`, and interpolate between the neighbouring
order statistics (the upper index clipped to `n-1`). -/
def np_percentile (xs : List ℚ) (p : ℚ) : ℚ :=
  let s := xs.insertionSort (· ≤ ·)
  let n := s.length
  let v : ℚ := ((n : ℚ) - 1) * p / 100
  let i : ℕ := (⌊v⌋).toNat
  let g : ℚ := v - (i : ℚ)
  let lo := s.getD i 0
  let hi := s.getD (min (i + 1) (n - 1)) 0
  lo + g * (hi - lo)

/-- The threshold computation in `main`:
`q1, q3 = np.percentile(arr, [25, 75]); iqr = q3 - q1; m = 1.5; upper = q3 + m * iqr`. -/
def upper_threshold (rates : List ℚ) : ℚ :=
  let q1 := np_percentile rates 25
  let q3 := np_percentile rates 75
  let iqr := q3 - q1
  let m : ℚ := 1.5
  q3 + m * iqr

/-- Threshold written from the specification text: the Tukey upper fence
`Q3 + 1.5 * (Q3 - Q1)` over linear-interpolation percentile estimates. -/
def spec_tukey_threshold (rates : List ℚ) : ℚ :=
  np_percentile rates 75 + 1.5 * (np_percentile rates 75 - np_percentile rates 25)

/-- The per-record loop body of `annotate_transactions`: `is_dust` starts true;
each sub-transaction whose fee-rate field (default 0) parses as a float
(`some r`) and exceeds the threshold flips it to false (with `break`);
a sub whose rate fails to parse (`none`, the TypeError/ValueError case)
is skipped by `continue`. -/
def is_dust_loop (thr : ℚ) : List (Option ℚ) → Bool
  | [] => true
  | none :: rest => is_dust_loop thr rest
  | some r :: rest => if thr < r then false else is_dust_loop thr rest

/-- The dust_attacker field: the one-character string 1 when the loop kept
`is_dust` true, else 0. -/
def dust_label (subs : List (Option ℚ)) (thr : ℚ) : String :=
  if is_dust_loop thr subs then "1" else "0"

/-! ### compute_attack_metrics.py -/

/-- The digit characters of `fp` zero-padded to width `d` (the fractional part
of Python fixed-point formatting). -/
def fracDigits (d fp : ℕ) : List Char :=
  (List.range d).map (fun i => Char.ofNat (48 + fp / 10 ^ (d - 1 - i) % 10))

/-- Python `f"{q:.df}"` fixed-point formatting: round `q` to `d` decimal
places and print with exactly `d` fractional digits.  (CPython rounds the
underlying binary double half-to-even; on the exactly representable values
considered here that agrees with rounding the rational value.) -/
def formatFixed (d : ℕ) (q : ℚ) : String :=
  let m : ℤ := round (q * 10 ^ d)
  (if m < 0 then "-" else "") ++ toString (m.natAbs / 10 ^ d) ++ "." ++
    String.mk (fracDigits d (m.natAbs % 10 ^ d))

/-- The rational value of `float(f"{q:.df}")`: parsing back a fixed-point
rendering quantizes to a multiple of `10^(-d)`. -/
def quantize (d : ℕ) (q : ℚ) : ℚ := ((round (q * 10 ^ d) : ℤ) : ℚ) / 10 ^ d

/-- `float(fee_rate or 0)`: a missing/None rate — and, via Python falsiness,
a zero rate — becomes 0. -/
def pyFeeRate : Option ℚ → ℚ
  | none => 0
  | some r => if r = 0 then 0 else r

/-- The rational value of the cost computed by `calculate_cost_btc`:
`bytes * max(float(fee_rate or 0), DEFAULT_FEE_RATE) / 1e8` with
`DEFAULT_FEE_RATE = 1`. -/
def cost_val (b : ℤ) (fee_rate : Option ℚ) : ℚ :=
  (b : ℚ) * max (pyFeeRate fee_rate) 1 / 10 ^ 8

/-- `calculate_cost_btc`: the cost formatted with 8 decimal places
(8 fractional digits).  `b` is the bytes field of the entry (default 0);
the None-returning error paths (non-dict entry, unparsable field) are outside
this structured model. -/
def calculate_cost_btc (b : ℤ) (fee_rate : Option ℚ) : String :=
  formatFixed 8 (cost_val b fee_rate)

/-- An input UTXO entry of `Txn Input UTXO Details`. -/
structure InEntry where
  bytes : ℤ
  victim_cost_btc : Option String

/-- An output UTXO entry of `Txn Output UTXO Details`. -/
structure OutEntry where
  bytes : ℤ
  attack_cost_btc : Option String

/-- The parsed `Txn Input UTXO Details` field: a single dict or a list. -/
inductive InputsVal where
  | dict : InEntry → InputsVal
  | list : List InEntry → InputsVal

/-- One entry of `sent_utxo_uxns`: its own fee rate and its (already parsed)
`Txn Output UTXO Details` entry, if present. -/
structure SentTxn where
  feeRate : Option ℚ
  output : Option OutEntry

/-- A transaction record as rewritten by `process_file` (structured view:
the nested JSON-string fields already parsed). -/
structure TxRecord where
  feeRate : Option ℚ
  inputs : Option InputsVal
  sent : List SentTxn
  total_victim_cost_btc : Option String
  total_attack_cost_btc : Option String
  attack_effect : Option String

/-- Annotate one input entry with its victim_cost_btc string. -/
def process_inEntry (fee_rate : Option ℚ) (e : InEntry) : InEntry :=
  { e with victim_cost_btc := some (calculate_cost_btc e.bytes fee_rate) }

/-- Recompute the input entries (dict and list branches of `process_file`). -/
def process_inputs (fee_rate : Option ℚ) : Option InputsVal → Option InputsVal
  | none => none
  | some (InputsVal.dict e) => some (InputsVal.dict (process_inEntry fee_rate e))
  | some (InputsVal.list es) => some (InputsVal.list (es.map (process_inEntry fee_rate)))

/-- `total_victim`: the accumulated `float(cost)` values, each the parsed-back
rendering of the 8-decimal cost string. -/
def victim_total (fee_rate : Option ℚ) : Option InputsVal → ℚ
  | none => 0
  | some (InputsVal.dict e) => quantize 8 (cost_val e.bytes fee_rate)
  | some (InputsVal.list es) => (es.map (fun e => quantize 8 (cost_val e.bytes fee_rate))).sum

/-- Annotate one sent_utxo_uxns entry with its attack_cost_btc string
(skipped when the output-details field is absent). -/
def process_sent (s : SentTxn) : SentTxn :=
  match s.output with
  | none => s
  | some e =>
    { s with output := some { e with attack_cost_btc := some (calculate_cost_btc e.bytes s.feeRate) } }

/-- `total_attack`: the accumulated `float(cost)` values over `sent_utxo_uxns`. -/
def attack_total (sent : List SentTxn) : ℚ :=
  (sent.map (fun s =>
    match s.output with
    | none => 0
    | some e => quantize 8 (cost_val e.bytes s.feeRate))).sum

/-- The attack_effect field: vc / ac * 100 when ac is positive, else 0,
rendered with 2 fractional digits. -/
def attack_effect_str (vc ac : ℚ) : String :=
  formatFixed 2 (if 0 < ac then vc / ac * 100 else 0)

/-- The per-transaction recomputation of `process_file`: victim costs, attack
costs, both totals (formatted to 8 decimals) and the attack-effect percentage;
`vc` and `ac` are the totals parsed back from their formatted strings. -/
def process_tx (tx : TxRecord) : TxRecord :=
  let tv := victim_total tx.feeRate tx.inputs
  let ta := attack_total tx.sent
  let vc := quantize 8 tv
  let ac := quantize 8 ta
  { tx with
    inputs := process_inputs tx.feeRate tx.inputs,
    sent := tx.sent.map process_sent,
    total_victim_cost_btc := some (formatFixed 8 tv),
    total_attack_cost_btc := some (formatFixed 8 ta),
    attack_effect := some (attack_effect_str vc ac) }

/-- The whole record-set pass of `process_file`. -/
def process_records (rs : List TxRecord) : List TxRecord := rs.map process_tx

/-- A nested JSON-encoded field before parsing: absent (`None`), a value that
parses, or a string that fails to parse as JSON. -/
inductive JsonField (α : Type) where
  | absent : JsonField α
  | wellFormed : α → JsonField α
  | malformed : JsonField α

/-- The nested-field reads in `process_file`
(`entries = json.loads(raw) if is_str else raw` and
`entry = json.loads(raw_out) if is_str_out else raw_out`): both run with no
surrounding try/except, so a malformed JSON string raises — modelled as
`Except.error ()`. -/
def load_nested_field {α : Type} : JsonField α → Except Unit (Option α)
  | JsonField.absent => Except.ok none
  | JsonField.wellFormed v => Except.ok (some v)
  | JsonField.malformed => Except.error ()

/-- A `sent_utxo_uxns` entry before its nested field is parsed. -/
structure RawSentTxn where
  feeRate : Option ℚ
  output : JsonField OutEntry

/-- A transaction record before its nested JSON-string fields are parsed. -/
structure RawTxRecord where
  feeRate : Option ℚ
  inputs : JsonField InputsVal
  sent : List RawSentTxn

/-- The per-transaction body of `process_file` including the unprotected
`json.loads` calls: any malformed nested field propagates as an exception. -/
def process_tx_raw (tx : RawTxRecord) : Except Unit TxRecord := do
  let inputs ← load_nested_field tx.inputs
  let sent ← tx.sent.mapM (fun s => do
    let o ← load_nested_field s.output
    pure ({ feeRate := s.feeRate, output := o } : SentTxn))
  pure (process_tx
    { feeRate := tx.feeRate, inputs := inputs, sent := sent,
      total_victim_cost_btc := none, total_attack_cost_btc := none, attack_effect := none })

/-- `process_file` over a record list: the loop aborts at the first raised
exception. -/
def process_records_raw (rs : List RawTxRecord) : Except Unit (List TxRecord) :=
  rs.mapM process_tx_raw

/-! ### General lemmas -/

/-- Rational ceiling of a natural number divided by 4, as natural division. -/
theorem nat_ceil_div_four (w : ℕ) : ⌈((w : ℕ) : ℚ) / 4⌉₊ = (w + 3) / 4 := by
  have hmod := Nat.div_add_mod (w + 3) 4
  have hlt : (w + 3) % 4 < 4 := Nat.mod_lt _ (by norm_num)
  rcases Nat.eq_zero_or_pos ((w + 3) / 4) with h0 | hpos
  · have hw : w = 0 := by omega
    subst hw
    simp [h0]
  · rw [Nat.ceil_eq_iff (by omega)]
    constructor
    · have h1 : 4 * ((w + 3) / 4 - 1) < w := by omega
      rw [lt_div_iff₀ (by norm_num : (0 : ℚ) < 4)]
      calc ((((w + 3) / 4 - 1 : ℕ) : ℚ)) * 4 = ((4 * ((w + 3) / 4 - 1) : ℕ) : ℚ) := by
            push_cast; ring
        _ < (w : ℚ) := by exact_mod_cast Nat.cast_lt.mpr h1
    · have h2 : w ≤ 4 * ((w + 3) / 4) := by omega
      rw [div_le_iff₀ (by norm_num : (0 : ℚ) < 4)]
      calc (w : ℚ) ≤ ((4 * ((w + 3) / 4) : ℕ) : ℚ) := by exact_mod_cast Nat.cast_le.mpr h2
        _ = (((w + 3) / 4 : ℕ) : ℚ) * 4 := by push_cast; ring

/-- A left fold accumulating `f` over a list, started at `n`, is `n` plus the
sum of the mapped list. -/
theorem foldl_add_map_sum (f : String → ℕ) (l : List String) (n : ℕ) :
    l.foldl (fun acc w => acc + f w) n = n + (l.map f).sum := by
  induction l generalizing n with
  | nil => simp
  | cons w rest ih => simp [List.foldl_cons, ih (n + f w)]; omega

/-- Evaluation rule for `np_percentile` once the sorted list and the floored
virtual index are known. -/
theorem np_percentile_eval (xs s : List ℚ) (p : ℚ) (i : ℕ)
    (hs : xs.insertionSort (· ≤ ·) = s)
    (hi : ⌊((s.length : ℚ) - 1) * p / 100⌋ = (i : ℤ)) :
    np_percentile xs p =
      s.getD i 0 + (((s.length : ℚ) - 1) * p / 100 - i) *
        (s.getD (min (i + 1) (s.length - 1)) 0 - s.getD i 0) := by
  simp only [np_percentile, hs, hi, Int.toNat_natCast]

/-- Every character produced by `fracDigits` is a decimal digit. -/
theorem fracDigits_isDigit (x : ℕ) : (Char.ofNat (48 + x % 10)).isDigit = true := by
  have h : x % 10 < 10 := Nat.mod_lt _ (by norm_num)
  interval_cases h : x % 10 <;> decide

/-- `formatFixed d q` is an integer part, a dot, and exactly `d` digit
characters. -/
theorem formatFixed_split (d : ℕ) (q : ℚ) :
    ∃ pre post : String, formatFixed d q = pre ++ "." ++ post ∧
      post.length = d ∧ post.data.all Char.isDigit = true := by
  refine ⟨(if round (q * 10 ^ d) < 0 then "-" else "") ++
    toString ((round (q * 10 ^ d)).natAbs / 10 ^ d),
    String.mk (fracDigits d ((round (q * 10 ^ d)).natAbs % 10 ^ d)), rfl, ?_, ?_⟩
  · simp [String.length, fracDigits]
  · simp only [String.data]
    rw [List.all_eq_true]
    intro c hc
    simp only [fracDigits, List.mem_map, List.mem_range] at hc
    obtain ⟨i, _, rfl⟩ := hc
    exact fracDigits_isDigit _

/-- The dust loop accepts exactly when every parsed fee rate is at most the
threshold. -/
theorem is_dust_loop_eq (thr : ℚ) (subs : List (Option ℚ)) :
    is_dust_loop thr subs = (subs.filterMap id).all (fun r => decide (r ≤ thr)) := by
  induction subs with
  | nil => rfl
  | cons s rest ih =>
    cases s with
    | none => simpa [is_dust_loop] using ih
    | some r =>
      by_cases h : thr < r
      · simp [is_dust_loop, h, not_le.mpr h]
      · simp [is_dust_loop, h, not_lt.mp h, ih]

/-! ### Claim theorems -/

set_option maxRecDepth 8000 in
/-- C1: for every input descriptor, `calculate_input_bytes` returns the
reference weight/virtual-size value: with a non-empty witness stack,
`ceil((4*(40 + varint(sb) + sb) + 1 + Σ (varint(|w|) + |w|)) / 4)` where `sb`
is half the scriptSig hex length; with no witness but a scriptSig hex payload,
`40 + varint(sb) + sb`; and `41` when neither exists.  In particular a
no-witness input with a 50-byte scriptSig yields 91, and an input with two
64-byte witness items and empty scriptSig yields 74. -/
theorem input_bytes_matches_reference :
    (∀ item : InputItem, calculate_input_bytes item = spec_input_vbytes item)
    ∧ calculate_input_bytes ⟨String.mk (List.replicate 100 'a'), []⟩ = 91
    ∧ calculate_input_bytes
        ⟨"", [String.mk (List.replicate 128 'a'), String.mk (List.replicate 128 'b')]⟩ = 74 := by
  refine ⟨?_, by decide, ?_⟩
  · intro item
    by_cases hw : item.txinwitness = []
    · by_cases hh : item.scriptSigHex = ""
      · simp [calculate_input_bytes, spec_input_vbytes, hw, hh]
      · simp [calculate_input_bytes, spec_input_vbytes, hw, hh]
    · by_cases hh : item.scriptSigHex = ""
      · simp [calculate_input_bytes, spec_input_vbytes, hw, hh,
          foldl_add_map_sum (fun w => varint_size (w.length / 2) + w.length / 2)]
      · simp [calculate_input_bytes, spec_input_vbytes, hw, hh,
          foldl_add_map_sum (fun w => varint_size (w.length / 2) + w.length / 2)]
  · have h : calculate_input_bytes
        ⟨"", [String.mk (List.replicate 128 'a'), String.mk (List.replicate 128 'b')]⟩
        = ⌈((295 : ℕ) : ℚ) / 4⌉₊ := rfl
    rw [h, nat_ceil_div_four]

/-- C6: the output byte size is a pure table lookup on the script type:
P2PKH 34, P2SH 32, P2WPKH 31, P2WSH 43, P2TR 43, OP_RETURN 0, and 43 for any
other non-empty type, independent of the `outputHash` content. -/
theorem output_bytes_fixed_table :
    ∀ hash : String,
      add_bytes_output ⟨"P2PKH", hash⟩ = 34 ∧
      add_bytes_output ⟨"P2SH", hash⟩ = 32 ∧
      add_bytes_output ⟨"P2WPKH", hash⟩ = 31 ∧
      add_bytes_output ⟨"P2WSH", hash⟩ = 43 ∧
      add_bytes_output ⟨"P2TR", hash⟩ = 43 ∧
      add_bytes_output ⟨"OP_RETURN", hash⟩ = 0 ∧
      ∀ st : String, st ≠ "" → st ≠ "P2PKH" → st ≠ "P2SH" → st ≠ "P2WPKH" →
        st ≠ "P2WSH" → st ≠ "P2TR" → st ≠ "OP_RETURN" →
        add_bytes_output ⟨st, hash⟩ = 43 := by
  intro hash
  refine ⟨by simp [add_bytes_output, SCRIPT_TYPE_BYTES_get],
    by simp [add_bytes_output, SCRIPT_TYPE_BYTES_get],
    by simp [add_bytes_output, SCRIPT_TYPE_BYTES_get],
    by simp [add_bytes_output, SCRIPT_TYPE_BYTES_get],
    by simp [add_bytes_output, SCRIPT_TYPE_BYTES_get],
    by simp [add_bytes_output, SCRIPT_TYPE_BYTES_get], ?_⟩
  intro st h0 h1 h2 h3 h4 h5 h6
  simp [add_bytes_output, SCRIPT_TYPE_BYTES_get, h0, h1, h2, h3, h4, h5, h6]

/-- Witness for C6: the default row of the table at the concrete unknown type
FOO, and the P2TR row at a concrete hash. -/
theorem output_bytes_fixed_table_witness :
    add_bytes_output ⟨"FOO", "x"⟩ = 43 ∧ add_bytes_output ⟨"P2TR", "1abc"⟩ = 43 :=
  ⟨(output_bytes_fixed_table "x").2.2.2.2.2.2 "FOO" (by decide) (by decide) (by decide)
      (by decide) (by decide) (by decide) (by decide),
    (output_bytes_fixed_table "1abc").2.2.2.2.1⟩

/-- C7 counterexample: an empty address string is classified UNKNOWN, not
OP_RETURN — the `if not address` guard fires before the OP_RETURN check. -/
theorem op_return_empty_address_counterexample :
    ¬ identify_script_type "" = "OP_RETURN" := by decide

/-- The P2SH branch never produces the OP_RETURN class. -/
theorem classify_p2sh_ne_op_return (asm hex_sig : String) (witness : List String) :
    classify_p2sh asm hex_sig witness ≠ "OP_RETURN" := by
  simp only [classify_p2sh]
  repeat' split
  all_goals decide

/-- C7 (amended): an address beginning with the literal OP_RETURN marker is
classified OP_RETURN by `identify_script_type`; an empty address yields
UNKNOWN there; and `classify_utxo` has no OP_RETURN class at all — it never
returns OP_RETURN for any descriptor, empty-address or otherwise. -/
theorem op_return_classifier_amended :
    (∀ addr : String, py_startswith addr "OP_RETURN" = true →
      identify_script_type addr = "OP_RETURN")
    ∧ identify_script_type "" = "UNKNOWN"
    ∧ (∀ u : Utxo, classify_utxo u ≠ "OP_RETURN") := by
  refine ⟨?_, by decide, ?_⟩
  · intro addr h
    have hne : addr ≠ "" := by
      intro he
      subst he
      exact absurd h (by decide)
    simp [identify_script_type, hne, h]
  · intro u
    simp only [classify_utxo]
    repeat' split
    all_goals first
      | exact classify_p2sh_ne_op_return _ _ _
      | decide

/-- Witness for C7 (amended): the OP_RETURN branch at a concrete marker
address, and a concrete empty-address descriptor pre-tagged P2TR — routed to
the scriptType fallback — still not classified OP_RETURN. -/
theorem op_return_classifier_amended_witness :
    identify_script_type "OP_RETURN 6a24aa21" = "OP_RETURN"
    ∧ classify_utxo ⟨"", "", "", [], "P2TR"⟩ ≠ "OP_RETURN" :=
  ⟨op_return_classifier_amended.1 "OP_RETURN 6a24aa21" (by decide),
    op_return_classifier_amended.2.2 ⟨"", "", "", [], "P2TR"⟩⟩

/-- C3: a record is labeled "1" exactly when every sub-transaction fee rate
that parses is at most the threshold (one exceedance gives "0"), and a record
with no sub-transactions is labeled "1". -/
theorem dust_label_iff_all_below :
    ∀ (subs : List (Option ℚ)) (thr : ℚ),
      (dust_label subs thr = "1" ↔
        (subs.filterMap id).all (fun r => decide (r ≤ thr)) = true)
      ∧ dust_label [] thr = "1" := by
  intro subs thr
  refine ⟨?_, rfl⟩
  rw [dust_label, is_dust_loop_eq]
  cases hb : (subs.filterMap id).all (fun r => decide (r ≤ thr)) <;> simp [hb]

/-- C2: for a non-empty corpus the outlier threshold is the Tukey upper fence
`Q3 + 1.5*(Q3 - Q1)` over linear-interpolation percentiles, and on the sample
[1,...,9,100] the quartiles are 3.25 and 7.75 and the threshold 14.5. -/
theorem threshold_matches_tukey :
    (∀ rates : List ℚ, rates ≠ [] → upper_threshold rates = spec_tukey_threshold rates)
    ∧ np_percentile [1,2,3,4,5,6,7,8,9,100] 25 = 3.25
    ∧ np_percentile [1,2,3,4,5,6,7,8,9,100] 75 = 7.75
    ∧ upper_threshold [1,2,3,4,5,6,7,8,9,100] = 14.5 := by
  have hs : List.insertionSort (· ≤ ·) ([1,2,3,4,5,6,7,8,9,100] : List ℚ)
      = [1,2,3,4,5,6,7,8,9,100] := by decide
  have hlen : ([1,2,3,4,5,6,7,8,9,100] : List ℚ).length = 10 := by decide
  have h25 : np_percentile [1,2,3,4,5,6,7,8,9,100] 25 = 3.25 := by
    rw [np_percentile_eval _ _ 25 2 hs (by norm_num)]
    have e1 : (([1,2,3,4,5,6,7,8,9,100] : List ℚ).getD 2 0) = 3 := by decide
    have e2 : (([1,2,3,4,5,6,7,8,9,100] : List ℚ).getD
        (min (2 + 1) (([1,2,3,4,5,6,7,8,9,100] : List ℚ).length - 1)) 0) = 4 := by decide
    rw [e1, e2, hlen]
    norm_num
  have h75 : np_percentile [1,2,3,4,5,6,7,8,9,100] 75 = 7.75 := by
    rw [np_percentile_eval _ _ 75 6 hs (by norm_num)]
    have e1 : (([1,2,3,4,5,6,7,8,9,100] : List ℚ).getD 6 0) = 7 := by decide
    have e2 : (([1,2,3,4,5,6,7,8,9,100] : List ℚ).getD
        (min (6 + 1) (([1,2,3,4,5,6,7,8,9,100] : List ℚ).length - 1)) 0) = 8 := by decide
    rw [e1, e2, hlen]
    norm_num
  refine ⟨fun rates _ => rfl, h25, h75, ?_⟩
  simp only [upper_threshold, h25, h75]
  norm_num

/-- Witness for C2: the Tukey identity applied to the concrete non-empty
sample. -/
theorem threshold_matches_tukey_witness :
    ([1,2,3,4,5,6,7,8,9,100] : List ℚ) ≠ [] ∧
    upper_threshold [1,2,3,4,5,6,7,8,9,100] =
      spec_tukey_threshold [1,2,3,4,5,6,7,8,9,100] :=
  ⟨by simp, threshold_matches_tukey.1 [1,2,3,4,5,6,7,8,9,100] (by simp)⟩

/-- C4: the per-descriptor cost string is the 8-decimal rendering of
`bytes * max(feeRate, 1) / 1e8` — the 1 sat/byte floor applies to zero and
missing rates — it always carries exactly 8 fractional digits, and
feeRate 0 with 100 bytes renders as 0.00000100. -/
theorem cost_btc_floor_and_format :
    ∀ (b : ℤ) (r : Option ℚ),
      calculate_cost_btc b r = formatFixed 8 ((b : ℚ) * max (r.getD 0) 1 / 10 ^ 8)
      ∧ (∃ pre post : String, calculate_cost_btc b r = pre ++ "." ++ post ∧
          post.length = 8 ∧ post.data.all Char.isDigit = true)
      ∧ calculate_cost_btc 100 (some 0) = "0.00000100" := by
  intro b r
  have hmax : max (pyFeeRate r) 1 = max (r.getD 0) 1 := by
    cases r with
    | none => rfl
    | some x =>
      by_cases hx : x = 0
      · simp [pyFeeRate, hx]
      · simp [pyFeeRate, hx]
  refine ⟨by simp [calculate_cost_btc, cost_val, hmax], ?_, ?_⟩
  · obtain ⟨pre, post, h1, h2, h3⟩ := formatFixed_split 8 (cost_val b r)
    exact ⟨pre, post, h1, h2, h3⟩
  · have hm : max (0 : ℚ) 1 = 1 := max_eq_right (by norm_num)
    have hc : cost_val 100 (some 0) = (100 : ℚ) * 1 / 10 ^ 8 := by
      simp [cost_val, pyFeeRate, hm]
    have hr : round ((100 : ℚ) * 1 / 10 ^ 8 * 10 ^ 8) = 100 := by norm_num [round_eq]
    rw [show calculate_cost_btc 100 (some 0) = formatFixed 8 (cost_val 100 (some 0)) from rfl, hc]
    simp [formatFixed, hr]
    decide

/-- C5: the recomputed attack_effect field is the 2-decimal rendering of
`total_victim / total_attack * 100` when the attack total is positive and of 0
otherwise; victim 0.00010000 against attack 0.00005000 renders as 200.00. -/
theorem attack_effect_roi :
    (∀ tx : TxRecord, (process_tx tx).attack_effect =
      some (attack_effect_str (quantize 8 (victim_total tx.feeRate tx.inputs))
        (quantize 8 (attack_total tx.sent))))
    ∧ (∀ vc ac : ℚ, attack_effect_str vc ac =
        formatFixed 2 (if 0 < ac then vc / ac * 100 else 0))
    ∧ (∀ vc ac : ℚ, ∃ pre post : String, attack_effect_str vc ac = pre ++ "." ++ post ∧
        post.length = 2 ∧ post.data.all Char.isDigit = true)
    ∧ attack_effect_str (10000 / 10 ^ 8) (5000 / 10 ^ 8) = "200.00" := by
  refine ⟨fun tx => rfl, fun vc ac => rfl, fun vc ac => ?_, ?_⟩
  · obtain ⟨pre, post, h1, h2, h3⟩ :=
      formatFixed_split 2 (if 0 < ac then vc / ac * 100 else 0)
    exact ⟨pre, post, h1, h2, h3⟩
  · have hpos : (0 : ℚ) < 5000 / 10 ^ 8 := by norm_num
    have hr : round ((10000 : ℚ) / 10 ^ 8 / (5000 / 10 ^ 8) * 100 * 10 ^ 2) = 20000 := by
      norm_num [round_eq]
    simp only [attack_effect_str, if_pos hpos]
    simp [formatFixed, hr]
    decide

/-- C8: evaluating the per-transaction body of `process_file` at a record whose
nested JSON-string field is malformed: the unprotected `json.loads` raises and
the exception escapes, aborting the batch — rather than the field being
treated as absent.  A record with the field absent processes normally. -/
theorem malformed_nested_json_raises :
    process_records_raw [⟨none, JsonField.malformed, []⟩] = Except.error ()
    ∧ process_records_raw
        [⟨none, JsonField.absent, [⟨none, JsonField.malformed⟩]⟩] = Except.error ()
    ∧ process_records_raw [⟨none, JsonField.absent, []⟩] =
        Except.ok [process_tx ⟨none, none, [], none, none, none⟩] :=
  ⟨rfl, rfl, rfl⟩

/-- Annotating an input entry twice with the same fee rate equals annotating
once. -/
theorem process_inEntry_idem (r : Option ℚ) (e : InEntry) :
    process_inEntry r (process_inEntry r e) = process_inEntry r e := rfl

/-- Recomputing the input entries twice equals recomputing once. -/
theorem process_inputs_idem (r : Option ℚ) (iv : Option InputsVal) :
    process_inputs r (process_inputs r iv) = process_inputs r iv := by
  cases iv with
  | none => rfl
  | some v =>
    cases v with
    | dict e => rfl
    | list es =>
      have h : (es.map (process_inEntry r)).map (process_inEntry r)
          = es.map (process_inEntry r) := by
        rw [List.map_map]
        exact List.map_congr_left fun e _ => rfl
      simp only [process_inputs, h]

/-- The victim total only reads the byte counts, which annotation preserves. -/
theorem victim_total_process (r : Option ℚ) (iv : Option InputsVal) :
    victim_total r (process_inputs r iv) = victim_total r iv := by
  cases iv with
  | none => rfl
  | some v =>
    cases v with
    | dict e => rfl
    | list es =>
      simp only [process_inputs, victim_total, List.map_map]
      exact congrArg List.sum (List.map_congr_left fun e _ => rfl)

/-- Annotating a `sent_utxo_uxns` entry twice equals annotating once. -/
theorem process_sent_idem (s : SentTxn) : process_sent (process_sent s) = process_sent s := by
  cases h : s.output with
  | none => simp [process_sent, h]
  | some e => simp [process_sent, h]

/-- Pointwise idempotence of `process_sent` as function equality. -/
theorem process_sent_comp : process_sent ∘ process_sent = process_sent :=
  funext fun s => process_sent_idem s

/-- The attack total only reads fee rates and byte counts, which annotation
preserves. -/
theorem attack_total_process (sent : List SentTxn) :
    attack_total (sent.map process_sent) = attack_total sent := by
  simp only [attack_total, List.map_map]
  refine congrArg List.sum (List.map_congr_left fun s _ => ?_)
  cases h : s.output with
  | none => simp [process_sent, h]
  | some e => simp [process_sent, h]

/-- The per-transaction recomputation is idempotent. -/
theorem process_tx_idem (tx : TxRecord) : process_tx (process_tx tx) = process_tx tx := by
  simp only [process_tx, process_inputs_idem, victim_total_process,
    List.map_map, process_sent_comp, attack_total_process]

/-- C9: the whole record-set pass of the cost accountant is idempotent:
running it twice yields the same record set as running it once. -/
theorem process_records_idempotent :
    ∀ rs : List TxRecord, process_records (process_records rs) = process_records rs := by
  intro rs
  simp only [process_records, List.map_map]
  exact List.map_congr_left fun tx _ => process_tx_idem tx

/-- C10: an input whose stripped address starts with bc1p is Taproot
script-path whenever the witness stack is empty (no error, no key-path), and
is key-path exactly when the witness stack has exactly one element. -/
theorem taproot_witness_classification :
    ∀ u : Utxo, py_startswith (py_strip u.inputHash) "bc1p" = true →
      (u.txinwitness = [] → classify_utxo u = "P2TR_script_path")
      ∧ (classify_utxo u = "P2TR_key_path" ↔ u.txinwitness.length = 1) := by
  intro u h
  obtain ⟨t, haddr⟩ : ∃ t, (py_strip u.inputHash).data = 'b' :: 'c' :: '1' :: 'p' :: t := by
    have h2 : ("bc1p".data).isPrefixOf (py_strip u.inputHash).data = true := h
    rw [ List.isPrefixOf_iff_prefix] at h2
    obtain ⟨t, ht⟩ := h2
    exact ⟨t, by rw [← ht]; rfl⟩
  have eq1 : py_startswith (py_strip u.inputHash) "1" = false := by
    simp [py_startswith, haddr, show ("1" : String).data = ['1'] from rfl, List.isPrefixOf]
  have eq2 : py_startswith (py_strip u.inputHash) "bc1q" = false := by
    simp [py_startswith, haddr,
      show ("bc1q" : String).data = ['b','c','1','q'] from rfl, List.isPrefixOf]
  have eq3 : py_startswith (py_strip u.inputHash) "3" = false := by
    simp [py_startswith, haddr, show ("3" : String).data = ['3'] from rfl, List.isPrefixOf]
  constructor
  · intro hw
    simp [classify_utxo, eq1, eq2, eq3, h, hw]
  · by_cases hlen : u.txinwitness.length = 1
    · simp [classify_utxo, eq1, eq2, eq3, h, hlen]
    · simp [classify_utxo, eq1, eq2, eq3, h, hlen]

/-- Witness for C10: a concrete bc1p input with an empty witness stack is
script-path, and one with a single witness item is key-path. -/
theorem taproot_witness_classification_witness :
    classify_utxo ⟨"bc1p5cyxnuxmeuwuvkwfem96lqzszd02n6xdcjrs", "", "", [], ""⟩
        = "P2TR_script_path"
    ∧ (classify_utxo ⟨"bc1p5cyxnuxmeuwuvkwfem96lqzszd02n6xdcjrs", "", "", ["aa"], ""⟩
        = "P2TR_key_path" ↔
       (["aa"] : List String).length = 1) :=
  ⟨(taproot_witness_classification
      ⟨"bc1p5cyxnuxmeuwuvkwfem96lqzszd02n6xdcjrs", "", "", [], ""⟩ (by decide)).1 rfl,
    (taproot_witness_classification
      ⟨"bc1p5cyxnuxmeuwuvkwfem96lqzszd02n6xdcjrs", "", "", ["aa"], ""⟩ (by decide)).2⟩
